import Mathlib

/-!
Verification of the helix-hands-on multi-agent search engine.

The development embeds, as executable Lean definitions, the parts of the
repository that the checked properties speak about:

* `src/mcp_server.py` — the sandboxed tool backend: `validate_path`,
  `read_file`, `grep` and `_search_file`.  Filesystem paths are modelled as
  lists of segments; rendering a path to its string form (`renderPath`) and
  Python's `str.startswith` (`startswith`) reproduce the string-level
  containment check the code performs.  The filesystem itself is an oracle
  (`FS`), and `read_file` returns, next to its result, the trace of
  filesystem primitives it invoked, so that "no filesystem call occurs"
  is a statement about an empty trace.

* `src/client.py` — the single-agent tool-calling loop (`agentRun`) driven
  by a scripted list of completion-service responses, recording every
  request (conversation sent, tool catalog sent) it makes; and the
  fan-out/fan-in coordinator (`helixCombine`, `helixTotal`) that partitions
  agent outcomes, concatenates successes and degrades gracefully when the
  synthesis call fails.

String primitives such as splitting on a separator, `str.startswith`,
`str.upper` and `str.rstrip` are defined here over the character list of a
`String`, so that every definition evaluates by kernel reduction on
concrete inputs.
-/

namespace Helix

/-- Python `full.startswith(pre)`, on the underlying character lists. -/
def startswith (full pre : String) : Bool :=
  pre.data.isPrefixOf full.data

/-- Characters up to (excluding) each `/`, as segments. -/
def splitSlashGo (cur : List Char) : List Char → List String
  | [] => [String.mk cur.reverse]
  | c :: rest =>
    if c = '/' then String.mk cur.reverse :: splitSlashGo [] rest
    else splitSlashGo (c :: cur) rest

/-- Split a relative path string into its segments, dropping empty components
the way `pathlib` collapses repeated slashes. -/
def splitPath (s : String) : List String :=
  (splitSlashGo [] s.data).filter (fun c => c ≠ "")

/-- Resolve a list of path segments the way `pathlib.Path.resolve` treats an
absolute path with no symlinks: `.` is dropped, `..` removes the last
accumulated segment (and is a no-op at the root). -/
def resolveSegs (acc : List String) : List String → List String
  | [] => acc
  | s :: rest =>
    if s = "." then resolveSegs acc rest
    else if s = ".." then resolveSegs acc.dropLast rest
    else resolveSegs (acc ++ [s]) rest

/-- String form of an absolute path, as `str(Path(...))` prints it. -/
def renderPath (segs : List String) : String :=
  "/" ++ String.intercalate "/" segs

/-- The error message `validate_path` raises. -/
def accessDeniedMsg (rel : String) : String :=
  "Access denied: path '" ++ rel ++ "' is outside user directory"

/-- `validate_path(user_dir, rel_path)` from `src/mcp_server.py`: resolve
`user_dir / rel_path` and `user_dir`, then test containment with
`str(full_path).startswith(str(user_dir_resolved))` — a raw string-prefix
comparison on the rendered paths. -/
def validate_path (userDir : List String) (rel : String) :
    Except String (List String) :=
  let fullPath := resolveSegs [] (userDir ++ splitPath rel)
  let userRes := resolveSegs [] userDir
  if startswith (renderPath fullPath) (renderPath userRes) then
    Except.ok fullPath
  else
    Except.error (accessDeniedMsg rel)

/-- Filesystem oracle: which resolved paths are regular files or
directories, a file's text content (`none` models a `UnicodeDecodeError`)
and its list of lines as the `grep` loop reads them. -/
structure FS where
  isFile : List String → Bool
  isDir : List String → Bool
  content : List String → Option String
  linesOf : List String → List String

/-- `Path.exists()`: true for files as well as directories. -/
def FS.fexists (fs : FS) (p : List String) : Bool :=
  fs.isFile p || fs.isDir p

/-- One filesystem primitive invoked by a backend operation; `read_file`
returns the trace of these next to its result. -/
inductive FsOp
  | existsCheck (p : List String)
  | isFileCheck (p : List String)
  | readOp (p : List String)
deriving DecidableEq

/-- `read_file(file_path)` from `src/mcp_server.py`: validate the path, then
check existence, check it is a regular file, and read it; each filesystem
primitive used is recorded in the returned trace.  A failed validation
returns the `Access denied` error with an empty trace. -/
def read_file (fs : FS) (userDir : List String) (filePath : String) :
    Except String String × List FsOp :=
  match validate_path userDir filePath with
  | Except.error e => (Except.error e, [])
  | Except.ok full =>
    if fs.fexists full = false then
      (Except.error ("File '" ++ filePath ++ "' not found"), [FsOp.existsCheck full])
    else if fs.isFile full = false then
      (Except.error ("'" ++ filePath ++ "' is not a file"),
       [FsOp.existsCheck full, FsOp.isFileCheck full])
    else
      match fs.content full with
      | some s =>
        (Except.ok s, [FsOp.existsCheck full, FsOp.isFileCheck full, FsOp.readOp full])
      | none =>
        (Except.error ("'" ++ filePath ++ "' is not a text file or uses unsupported encoding"),
         [FsOp.existsCheck full, FsOp.isFileCheck full, FsOp.readOp full])

/-- A filesystem in which `/base/u10/secret.txt` is the only regular file:
nothing exists under `/base/u1` at all. -/
def fsEscape : FS where
  isFile := fun p => p == ["base", "u10", "secret.txt"]
  isDir := fun p => p == ["base"] || p == ["base", "u1"] || p == ["base", "u10"]
  content := fun p => if p == ["base", "u10", "secret.txt"] then some "SECRET" else none
  linesOf := fun _ => []

end Helix

namespace Helix

/-- C1: the claim states that a Backend scoped to `/base/u1` rejects every
relative path resolving under the sibling root `/base/u10`, because
containment is decided on path segments.  The code decides containment with
`str.startswith` on the rendered paths, so `../u10/secret.txt` — which
resolves to `/base/u10/secret.txt`, not a segment-wise descendant of
`/base/u1` (second conjunct) — is accepted by `validate_path`, and
`read_file` scoped to `u1` returns the content of a file that exists only
under `u10`. -/
theorem validate_path_string_prefix_escape :
    validate_path ["base", "u1"] "../u10/secret.txt" =
      Except.ok ["base", "u10", "secret.txt"]
    ∧ List.isPrefixOf ["base", "u1"] ["base", "u10", "secret.txt"] = false
    ∧ (read_file fsEscape ["base", "u1"] "../u10/secret.txt").1 =
        Except.ok "SECRET" := by
  refine ⟨rfl, by decide, rfl⟩

/-- C2 counterexample: the claim states that every relative path containing
a `..` segment is rejected with `AccessDenied`.  The code resolves the path
first, so `a/../b.txt` — which contains a `..` segment but resolves back
inside the root — is accepted by `validate_path`. -/
theorem validate_path_accepts_inner_dotdot :
    validate_path ["base", "u1"] "a/../b.txt" =
      Except.ok ["base", "u1", "b.txt"] := by
  rfl

/-- C2 (amended): whenever the resolved target's string form does not extend
the resolved root's string form — the containment test the code actually
performs — `validate_path` raises the `Access denied` error, and `read_file`
on such a path returns that error having made no filesystem call at all
(its trace of filesystem primitives is empty, for every filesystem). -/
theorem validate_path_reject_no_fs_call (fs : FS) (userDir : List String)
    (rel : String)
    (h : startswith (renderPath (resolveSegs [] (userDir ++ splitPath rel)))
          (renderPath (resolveSegs [] userDir)) = false) :
    validate_path userDir rel = Except.error (accessDeniedMsg rel)
    ∧ read_file fs userDir rel = (Except.error (accessDeniedMsg rel), []) := by
  have hv : validate_path userDir rel = Except.error (accessDeniedMsg rel) := by
    unfold validate_path
    simp [h]
  exact ⟨hv, by unfold read_file; rw [hv]⟩

/-- C2 witness: `../../etc/passwd` under root `/base/u1` resolves to
`/etc/passwd`, fails the string-prefix test, and is rejected with no
filesystem access. -/
theorem validate_path_reject_no_fs_call_witness :
    validate_path ["base", "u1"] "../../etc/passwd" =
      Except.error (accessDeniedMsg "../../etc/passwd")
    ∧ read_file fsEscape ["base", "u1"] "../../etc/passwd" =
        (Except.error (accessDeniedMsg "../../etc/passwd"), []) :=
  validate_path_reject_no_fs_call fsEscape ["base", "u1"] "../../etc/passwd"
    (by decide)

end Helix

namespace Helix

/-- Python `line.rstrip()`: drop trailing whitespace characters. -/
def pyRstrip (s : String) : String :=
  String.mk (s.data.reverse.dropWhile Char.isWhitespace).reverse

/-- One reported match, `f"{display_name}:{line_num}:{line.rstrip()}"`. -/
def matchEntry (name : String) (n : Nat) (line : String) : String :=
  name ++ ":" ++ toString n ++ ":" ++ pyRstrip line

/-- The line-scanning loop of `_search_file` in `src/mcp_server.py`:
`n` is the 1-based number of the next line, `cnt` the number of matches
already collected (`len(matches)`); after appending a match the loop breaks
as soon as `len(matches) >= max_matches`. -/
def searchFileGo (rx : String → Bool) (name : String) (maxM : Nat) :
    List String → Nat → Nat → List String
  | [], _, _ => []
  | l :: rest, n, cnt =>
    if rx l then
      if maxM ≤ cnt + 1 then [matchEntry name n l]
      else matchEntry name n l :: searchFileGo rx name maxM rest (n + 1) (cnt + 1)
    else searchFileGo rx name maxM rest (n + 1) cnt

/-- `_search_file(file_path, regex, display_name, max_matches)` from
`src/mcp_server.py`, over the file's list of lines; the compiled regex is
abstracted as the predicate `rx` (`regex.search(line)` is truthy). -/
def search_file (rx : String → Bool) (displayName : String)
    (lines : List String) (maxM : Nat) : List String :=
  searchFileGo rx displayName maxM lines 1 0

/-- The recursive-walk loop of `grep`: each regular file found by
`rglob` (here: the list `files` of (relative display name, lines) in
traversal order) is searched with the remaining budget
`max_matches - len(matches)`, and the walk stops once 100 matches have
been collected. -/
def recSearchGo (rx : String → Bool) :
    List (String × List String) → List String → List String
  | [], acc => acc
  | (name, lines) :: rest, acc =>
    let acc' := acc ++ search_file rx name lines (100 - acc.length)
    if 100 ≤ acc'.length then acc' else recSearchGo rx rest acc'

/-- The tail of `grep`: the no-matches message, or the joined matches with
the truncation annotation exactly when `len(matches) >= 100`. -/
def formatGrep (pattern : String) (ms : List String) : String :=
  if ms.isEmpty then "No matches found for pattern: " ++ pattern
  else
    String.intercalate "\n" ms ++
      (if 100 ≤ ms.length then "\n\n(Showing first 100 matches)" else "")

/-- `grep(pattern, file_path)` from `src/mcp_server.py`.  `recompile` is the
`re.compile` oracle (`Except.error e` models `re.error`); `filePath = some
fp` models a truthy `file_path` argument and `none` the recursive walk over
`files`, whose existence check is `user_dir_resolved.exists()`. -/
def grep (recompile : String → Except String (String → Bool)) (pattern : String)
    (fs : FS) (userDir : List String) (filePath : Option String)
    (files : List (String × List String)) : Except String String :=
  match recompile pattern with
  | Except.error e => Except.error ("Invalid regex pattern: " ++ e)
  | Except.ok rx =>
    match filePath with
    | some fp =>
      match validate_path userDir fp with
      | Except.error e => Except.error e
      | Except.ok full =>
        if fs.fexists full = false then
          Except.error ("File '" ++ fp ++ "' not found")
        else if fs.isFile full = false then
          Except.error ("'" ++ fp ++ "' is not a file")
        else
          Except.ok (formatGrep pattern (search_file rx fp (fs.linesOf full) 100))
    | none =>
      if fs.fexists (resolveSegs [] userDir) = false then
        Except.error "User directory does not exist. Please create it first."
      else
        Except.ok (formatGrep pattern (recSearchGo rx files []))

/-- The scanning loop never exceeds its budget: starting from `cnt`
collected matches with `cnt < maxM`, it adds at most `maxM - cnt` more. -/
theorem searchFileGo_length (rx : String → Bool) (name : String) (maxM : Nat) :
    ∀ (lines : List String) (n cnt : Nat), cnt < maxM →
      (searchFileGo rx name maxM lines n cnt).length + cnt ≤ maxM := by
  intro lines
  induction lines with
  | nil => intro n cnt h; simp [searchFileGo]; omega
  | cons l rest ih =>
    intro n cnt h
    unfold searchFileGo
    by_cases hm : rx l
    · simp only [hm, if_true]
      by_cases hc : maxM ≤ cnt + 1
      · simp [hc]; omega
      · simp only [hc, if_false, List.length_cons]
        have := ih (n + 1) (cnt + 1) (by omega)
        omega
    · simp only [hm, if_false]
      exact ih (n + 1) cnt h

/-- A single-file search returns at most `maxM` matches (for a positive
budget). -/
theorem search_file_length (rx : String → Bool) (name : String)
    (lines : List String) (maxM : Nat) (h : 1 ≤ maxM) :
    (search_file rx name lines maxM).length ≤ maxM := by
  have := searchFileGo_length rx name maxM lines 1 0 (by omega)
  simpa [search_file] using this

/-- The recursive walk never collects more than 100 matches in total. -/
theorem recSearchGo_length (rx : String → Bool) :
    ∀ (files : List (String × List String)) (acc : List String),
      acc.length < 100 → (recSearchGo rx files acc).length ≤ 100 := by
  intro files
  induction files with
  | nil => intro acc h; simpa [recSearchGo] using h.le
  | cons f rest ih =>
    intro acc h
    obtain ⟨name, lines⟩ := f
    have hb : (search_file rx name lines (100 - acc.length)).length
        ≤ 100 - acc.length :=
      search_file_length rx name lines _ (by omega)
    unfold recSearchGo
    by_cases hc : 100 ≤ (acc ++ search_file rx name lines (100 - acc.length)).length
    · simp only [hc, if_true]
      simp only [List.length_append] at hc ⊢
      omega
    · simp only [hc, if_false]
      exact ih _ (by simp only [List.length_append] at hc ⊢; omega)

end Helix

namespace Helix

/-- C3: in both modes `grep` returns at most 100 matches — globally across
all files in the recursive walk — and whenever the 100-match cap is hit the
returned text carries the `(Showing first 100 matches)` truncation
annotation. -/
theorem grep_match_cap (recompile : String → Except String (String → Bool))
    (pattern : String) (rx : String → Bool) (fs : FS) (userDir : List String)
    (fp : String) (full : List String) (files : List (String × List String))
    (name : String) (lines : List String) :
    (recSearchGo rx files []).length ≤ 100
    ∧ (search_file rx name lines 100).length ≤ 100
    ∧ (recompile pattern = Except.ok rx →
        fs.fexists (resolveSegs [] userDir) = true →
        100 ≤ (recSearchGo rx files []).length →
        grep recompile pattern fs userDir none files =
          Except.ok (String.intercalate "\n" (recSearchGo rx files [])
            ++ "\n\n(Showing first 100 matches)"))
    ∧ (recompile pattern = Except.ok rx →
        validate_path userDir fp = Except.ok full →
        fs.fexists full = true →
        fs.isFile full = true →
        100 ≤ (search_file rx fp (fs.linesOf full) 100).length →
        grep recompile pattern fs userDir (some fp) files =
          Except.ok (String.intercalate "\n" (search_file rx fp (fs.linesOf full) 100)
            ++ "\n\n(Showing first 100 matches)")) := by
  refine ⟨recSearchGo_length rx files [] (by simp),
    search_file_length rx name lines 100 (by omega), ?_, ?_⟩
  · intro hrc hex hcap
    have hne : (recSearchGo rx files []).isEmpty = false := by
      rw [List.isEmpty_eq_false_iff_exists_mem]
      have : recSearchGo rx files [] ≠ [] := by
        intro h0; rw [h0] at hcap; simp at hcap
      exact List.exists_mem_of_ne_nil _ this
    simp [grep, hrc, hex, formatGrep, hne, hcap]
  · intro hrc hval hex hfile hcap
    have hne : (search_file rx fp (fs.linesOf full) 100).isEmpty = false := by
      rw [List.isEmpty_eq_false_iff_exists_mem]
      have : search_file rx fp (fs.linesOf full) 100 ≠ [] := by
        intro h0; rw [h0] at hcap; simp at hcap
      exact List.exists_mem_of_ne_nil _ this
    simp [grep, hrc, hval, hex, hfile, formatGrep, hne, hcap]

/-- A regex oracle matching every line, and one matching no line. -/
def rxAll : String → Bool := fun _ => true

/-- `re.compile` oracle that always succeeds with `rxAll`. -/
def rcAll : String → Except String (String → Bool) := fun _ => Except.ok rxAll

/-- One file with 101 identical lines: enough to hit the 100-match cap. -/
def filesW : List (String × List String) := [("a", List.replicate 101 "x")]

/-- A filesystem where every path is a regular file of 101 lines. -/
def fsAllFiles : FS where
  isFile := fun _ => true
  isDir := fun _ => false
  content := fun _ => some ""
  linesOf := fun _ => List.replicate 101 "x"

/-- C3 witness: on a 101-line file the cap is reached, the output is
truncated and annotated, in both recursive and single-file mode. -/
theorem grep_match_cap_witness :
    (recSearchGo rxAll filesW []).length ≤ 100
    ∧ (search_file rxAll "a" (List.replicate 101 "x") 100).length ≤ 100
    ∧ grep rcAll "p" fsAllFiles ["u"] none filesW =
        Except.ok (String.intercalate "\n" (recSearchGo rxAll filesW [])
          ++ "\n\n(Showing first 100 matches)")
    ∧ grep rcAll "p" fsAllFiles ["u"] (some "a") filesW =
        Except.ok (String.intercalate "\n"
            (search_file rxAll "a" (fsAllFiles.linesOf ["u", "a"]) 100)
          ++ "\n\n(Showing first 100 matches)") := by
  obtain ⟨h1, h2, h3, h4⟩ :=
    grep_match_cap rcAll "p" rxAll fsAllFiles ["u"] "a" ["u", "a"] filesW "a"
      (List.replicate 101 "x")
  exact ⟨h1, h2, h3 rfl rfl (by decide), h4 rfl rfl rfl rfl (by decide)⟩

/-- C10: with no `file_path`, `grep` first validates the regex — an invalid
pattern reports `Invalid regex pattern` even when the directory is missing —
then raises `User directory does not exist` when the Backend's root is
absent from disk; with a valid pattern and an existing tree containing no
match it returns the explicit no-matches message, not an error. -/
theorem grep_missing_dir (recompile : String → Except String (String → Bool))
    (pattern : String) (rx : String → Bool) (e : String) (fs : FS)
    (userDir : List String) (files : List (String × List String)) :
    (recompile pattern = Except.ok rx →
      fs.fexists (resolveSegs [] userDir) = false →
      grep recompile pattern fs userDir none files =
        Except.error "User directory does not exist. Please create it first.")
    ∧ (recompile pattern = Except.error e →
      grep recompile pattern fs userDir none files =
        Except.error ("Invalid regex pattern: " ++ e))
    ∧ (recompile pattern = Except.ok rx →
      fs.fexists (resolveSegs [] userDir) = true →
      recSearchGo rx files [] = [] →
      grep recompile pattern fs userDir none files =
        Except.ok ("No matches found for pattern: " ++ pattern)) := by
  refine ⟨?_, ?_, ?_⟩
  · intro hrc hex
    simp [grep, hrc, hex]
  · intro hrc
    simp [grep, hrc]
  · intro hrc hex hemp
    simp [grep, hrc, hex, formatGrep, hemp]

/-- A regex oracle matching no line, and its `re.compile` oracle. -/
def rxNone : String → Bool := fun _ => false

/-- `re.compile` oracle that always succeeds with `rxNone`. -/
def rcNone : String → Except String (String → Bool) := fun _ => Except.ok rxNone

/-- `re.compile` oracle that always fails. -/
def rcBad : String → Except String (String → Bool) := fun _ => Except.error "bad"

/-- An entirely empty filesystem: the user directory does not exist. -/
def fsNoDir : FS where
  isFile := fun _ => false
  isDir := fun _ => false
  content := fun _ => none
  linesOf := fun _ => []

/-- A filesystem where `/u` exists as a directory and nothing is a file. -/
def fsDirOnly : FS where
  isFile := fun _ => false
  isDir := fun p => p == ["u"]
  content := fun _ => none
  linesOf := fun _ => []

/-- C10 witness: missing directory yields the NotFound-style error; an
invalid pattern wins over the missing directory; a matchless existing tree
yields the no-matches message. -/
theorem grep_missing_dir_witness :
    grep rcNone "p" fsNoDir ["u"] none [] =
      Except.error "User directory does not exist. Please create it first."
    ∧ grep rcBad "p" fsNoDir ["u"] none [] =
        Except.error ("Invalid regex pattern: " ++ "bad")
    ∧ grep rcNone "p" fsDirOnly ["u"] none [("a", ["y"])] =
        Except.ok ("No matches found for pattern: " ++ "p") := by
  refine ⟨(grep_missing_dir rcNone "p" rxNone "bad" fsNoDir ["u"] []).1 rfl rfl,
    (grep_missing_dir rcBad "p" rxNone "bad" fsNoDir ["u"] []).2.1 rfl,
    (grep_missing_dir rcNone "p" rxNone "bad" fsDirOnly ["u"] [("a", ["y"])]).2.2
      rfl rfl (by decide)⟩

end Helix

namespace Helix

/-- A tool call issued by the completion service
(`call.id`, `call.function.name`, `call.function.arguments`). -/
structure ToolCall where
  id : String
  name : String
  args : String
deriving DecidableEq

/-- One conversation message, as appended to `messages` in `agent`. -/
inductive Msg
  | system (content : String)
  | user (content : String)
  | assistant (content : Option String) (toolCalls : List ToolCall)
  | tool (callId : String) (content : String)
deriving DecidableEq

/-- The backend's answer to one `call_tool` invocation: `ok = false` models
an MCP `isError` result (the FastMCP server turns a raised tool exception
into such a result instead of failing the session), and `payload` the text
content the client extracts from it. -/
structure ToolResult where
  ok : Bool
  payload : String
deriving DecidableEq

/-- One completion-service response (`response.choices[0].message`). -/
structure ModelResp where
  content : Option String
  toolCalls : List ToolCall
deriving DecidableEq

/-- One request made to the completion service: the `messages` submitted and
the tool catalog passed along (`none` when the `tools` argument is omitted,
as in the follow-up call of `agent`). -/
structure Request where
  msgs : List Msg
  tools : Option (List String)
deriving DecidableEq

/-- Executing one turn's tool calls, in the order issued: each call yields
exactly one `tool` message carrying its `call.id` and the payload of the
backend's result — for a failed call, the error text. -/
def execCalls (backend : String → String → ToolResult) (calls : List ToolCall) :
    List Msg :=
  calls.map (fun c => Msg.tool c.id (backend c.name c.args).payload)

/-- The `while msg.tool_calls` loop of `agent` in `src/client.py`, driven by
the scripted tail `rest` of completion-service responses.  Returns the final
content (`msg.content or ""`), the follow-up requests made inside the loop —
each submitting the grown conversation and omitting the tool catalog — and
the final conversation; `none` models running out of scripted responses. -/
def agentGo (backend : String → String → ToolResult) :
    List ModelResp → List Msg → ModelResp → Option (String × List Request × List Msg)
  | rest, conv, r =>
    match r.toolCalls with
    | [] => some (r.content.getD "", [], conv)
    | _ :: _ =>
      let conv' := conv ++ [Msg.assistant r.content r.toolCalls]
        ++ execCalls backend r.toolCalls
      match rest with
      | [] => none
      | r' :: rest' =>
        (agentGo backend rest' conv' r').map
          (fun x => (x.1, (⟨conv', none⟩ : Request) :: x.2.1, x.2.2))

/-- `agent` from `src/client.py`, abstracted over a scripted list of
completion-service responses: builds the system+user conversation, makes
the initial model call with the adapted tool catalog, then runs the
tool-calling loop.  The returned list records every request made, in
order. -/
def agentRun (sp q : String) (catalog : List String)
    (backend : String → String → ToolResult) (responses : List ModelResp) :
    Option (String × List Request × List Msg) :=
  match responses with
  | [] => none
  | r :: rest =>
    (agentGo backend rest [Msg.system sp, Msg.user q] r).map
      (fun x => (x.1, (⟨[Msg.system sp, Msg.user q], some catalog⟩ : Request) :: x.2.1,
        x.2.2))

/-- Every request the loop makes extends the conversation it started from,
omits the tool catalog, and the requests grow monotonically up to the final
conversation. -/
theorem agentGo_requests (backend : String → String → ToolResult) :
    ∀ (rest : List ModelResp) (conv : List Msg) (r : ModelResp)
      (res : String) (reqs : List Request) (cv : List Msg),
      agentGo backend rest conv r = some (res, reqs, cv) →
      (∀ x ∈ reqs, x.tools = none)
      ∧ (∀ x ∈ reqs, conv <+: x.msgs)
      ∧ List.Chain' (fun a b => a.msgs <+: b.msgs) reqs
      ∧ conv <+: cv
      ∧ (∀ x ∈ reqs, x.msgs <+: cv) := by
  intro rest
  induction rest with
  | nil =>
    intro conv r res reqs cv h
    unfold agentGo at h
    match hr : r.toolCalls with
    | [] =>
      rw [hr] at h
      simp only [Option.some.injEq, Prod.mk.injEq] at h
      obtain ⟨h1, h2, h3⟩ := h
      subst h2 h3
      exact ⟨by simp, by simp, by simp, List.prefix_refl _, by simp⟩
    | _ :: _ => rw [hr] at h; simp at h
  | cons r' rest' ih =>
    intro conv r res reqs cv h
    unfold agentGo at h
    match hr : r.toolCalls with
    | [] =>
      rw [hr] at h
      simp only [Option.some.injEq, Prod.mk.injEq] at h
      obtain ⟨h1, h2, h3⟩ := h
      subst h2 h3
      exact ⟨by simp, by simp, by simp, List.prefix_refl _, by simp⟩
    | c :: cs =>
      rw [hr] at h
      simp only [Option.map_eq_some'] at h
      obtain ⟨⟨res', reqs', cv'⟩, hgo, heq⟩ := h
      simp only [Prod.mk.injEq] at heq
      obtain ⟨he1, he2, he3⟩ := heq
      subst he1 he2 he3
      obtain ⟨ha, hb, hc, hd, he⟩ := ih _ _ _ _ _ hgo
      have hext : conv <+: conv ++ [Msg.assistant r.content (c :: cs)]
          ++ execCalls backend (c :: cs) := by
        rw [List.append_assoc]
        exact List.prefix_append _ _
      refine ⟨?_, ?_, ?_, ?_, ?_⟩
      · intro x hx
        rcases List.mem_cons.mp hx with h0 | h0
        · subst h0; rfl
        · exact ha x h0
      · intro x hx
        rcases List.mem_cons.mp hx with h0 | h0
        · subst h0; exact hext
        · exact hext.trans (hb x h0)
      · rw [List.chain'_cons']
        refine ⟨?_, hc⟩
        intro y hy
        rcases reqs' with _ | ⟨y0, ys⟩
        · simp at hy
        · simp only [List.head?_cons, Option.mem_def, Option.some.injEq] at hy
          subst hy
          exact hb y0 (by simp)
      · exact hext.trans hd
      · intro x hx
        rcases List.mem_cons.mp hx with h0 | h0
        · subst h0; exact hd
        · exact he x h0

end Helix

namespace Helix

/-- C4 counterexample: the claim states that every model call — initial and
follow-up — submits the tool catalog.  In a run with one tool turn, checking
`tools = catalog` over all recorded requests yields `false`: the follow-up
call in `agent` passes `messages` but omits the `tools` argument. -/
theorem agent_followup_omits_catalog_cex :
    (agentRun "sys" "qry" ["read_file"] (fun _ _ => ⟨true, "data"⟩)
        [⟨none, [⟨"c1", "read_file", "a.txt"⟩]⟩, ⟨some "done", []⟩]).map
      (fun out => out.2.1.all (fun r => r.tools == some ["read_file"]))
    = some false := by
  rfl

/-- C4 (amended): the initial model call submits the system+user conversation
together with the adapted tool catalog; every follow-up call omits the tool
catalog; the conversations submitted grow monotonically (each request's
messages extend the previous request's) and every submitted conversation is
a prefix of the final one — the full conversation so far, never a
truncation. -/
theorem agent_requests_shape (sp q : String) (catalog : List String)
    (backend : String → String → ToolResult) (responses : List ModelResp)
    (res : String) (reqs : List Request) (conv : List Msg)
    (h : agentRun sp q catalog backend responses = some (res, reqs, conv)) :
    reqs.head? = some ⟨[Msg.system sp, Msg.user q], some catalog⟩
    ∧ (∀ r ∈ reqs.tail, r.tools = none)
    ∧ List.Chain' (fun a b => a.msgs <+: b.msgs) reqs
    ∧ ∀ r ∈ reqs, r.msgs <+: conv := by
  unfold agentRun at h
  match responses with
  | [] => simp at h
  | r :: rest =>
    simp only [Option.map_eq_some'] at h
    obtain ⟨⟨res', reqs', cv'⟩, hgo, heq⟩ := h
    simp only [Prod.mk.injEq] at heq
    obtain ⟨he1, he2, he3⟩ := heq
    subst he1 he2 he3
    obtain ⟨ha, hb, hc, hd, he⟩ := agentGo_requests backend rest _ r _ _ _ hgo
    refine ⟨rfl, ?_, ?_, ?_⟩
    · simpa using ha
    · rw [List.chain'_cons']
      refine ⟨?_, hc⟩
      intro y hy
      rcases reqs' with _ | ⟨y0, ys⟩
      · simp at hy
      · simp only [List.head?_cons, Option.mem_def, Option.some.injEq] at hy
        subst hy
        exact hb y0 (by simp)
    · intro x hx
      rcases List.mem_cons.mp hx with h0 | h0
      · subst h0; exact hd
      · exact he x h0

/-- C4 witness: the two-round run of the counterexample input, with the
initial request carrying the catalog, the follow-up omitting it, and both
submitted conversations prefixes of the final one. -/
theorem agent_requests_shape_witness :
    [(⟨[Msg.system "sys", Msg.user "qry"], some ["read_file"]⟩ : Request),
     ⟨[Msg.system "sys", Msg.user "qry"]
       ++ [Msg.assistant none [⟨"c1", "read_file", "a.txt"⟩]]
       ++ [Msg.tool "c1" "data"], none⟩].head?
      = some ⟨[Msg.system "sys", Msg.user "qry"], some ["read_file"]⟩
    ∧ (∀ r ∈ [(⟨[Msg.system "sys", Msg.user "qry"], some ["read_file"]⟩ : Request),
        ⟨[Msg.system "sys", Msg.user "qry"]
          ++ [Msg.assistant none [⟨"c1", "read_file", "a.txt"⟩]]
          ++ [Msg.tool "c1" "data"], none⟩].tail, r.tools = none)
    ∧ List.Chain' (fun a b => a.msgs <+: b.msgs)
        [(⟨[Msg.system "sys", Msg.user "qry"], some ["read_file"]⟩ : Request),
         ⟨[Msg.system "sys", Msg.user "qry"]
           ++ [Msg.assistant none [⟨"c1", "read_file", "a.txt"⟩]]
           ++ [Msg.tool "c1" "data"], none⟩]
    ∧ ∀ r ∈ [(⟨[Msg.system "sys", Msg.user "qry"], some ["read_file"]⟩ : Request),
        ⟨[Msg.system "sys", Msg.user "qry"]
          ++ [Msg.assistant none [⟨"c1", "read_file", "a.txt"⟩]]
          ++ [Msg.tool "c1" "data"], none⟩],
        r.msgs <+: [Msg.system "sys", Msg.user "qry"]
          ++ [Msg.assistant none [⟨"c1", "read_file", "a.txt"⟩]]
          ++ [Msg.tool "c1" "data"] :=
  agent_requests_shape "sys" "qry" ["read_file"] (fun _ _ => ⟨true, "data"⟩)
    [⟨none, [⟨"c1", "read_file", "a.txt"⟩]⟩, ⟨some "done", []⟩]
    "done" _ _ rfl

/-- C5: when the first completion response carries zero tool calls, the
agent loop returns that message's content (`msg.content or ""`) after
exactly one recorded model request, with the conversation still just the
system and user messages — for every backend (no tool is executed) and
whatever scripted responses might have followed. -/
theorem agent_zero_toolcalls_one_roundtrip (sp q : String) (catalog : List String)
    (backend : String → String → ToolResult) (c : Option String)
    (rest : List ModelResp) :
    agentRun sp q catalog backend ({ content := c, toolCalls := [] } :: rest) =
      some (c.getD "", [⟨[Msg.system sp, Msg.user q], some catalog⟩],
        [Msg.system sp, Msg.user q]) := by
  simp [agentRun, agentGo]

/-- C6: a turn carrying tool calls `c :: cs` appends, after the assistant
message, exactly one `tool` message per call, in the order issued, each
keeping its `call.id` and carrying the payload of the backend's result —
for a backend answering with `ok = false` that payload is the human-readable
error text — and the loop then makes a second model call rather than
aborting: the run still finishes with the next response's content. -/
theorem agent_tool_failure_continues (sp q : String) (catalog : List String)
    (backend : String → String → ToolResult) (content : Option String)
    (c : ToolCall) (cs : List ToolCall) (c2 : Option String)
    (rest : List ModelResp) :
    agentRun sp q catalog backend
        ({ content := content, toolCalls := c :: cs } ::
          { content := c2, toolCalls := [] } :: rest) =
      some (c2.getD "",
        [⟨[Msg.system sp, Msg.user q], some catalog⟩,
         ⟨[Msg.system sp, Msg.user q] ++ [Msg.assistant content (c :: cs)]
           ++ (c :: cs).map (fun x => Msg.tool x.id (backend x.name x.args).payload),
          none⟩],
        [Msg.system sp, Msg.user q] ++ [Msg.assistant content (c :: cs)]
          ++ (c :: cs).map (fun x => Msg.tool x.id (backend x.name x.args).payload)) := by
  simp [agentRun, agentGo, execCalls]

end Helix

namespace Helix

/-- Python `s.upper()` for the ASCII category names. -/
def pyUpper (s : String) : String :=
  String.mk (s.data.map Char.toUpper)

/-- Python `f.split(':')[0]`: the characters before the first colon. -/
def splitColonHead (f : String) : String :=
  String.mk (f.data.takeWhile (fun c => !(c == ':')))

/-- Needle occurs as a contiguous substring of the haystack. -/
def containsSub (needle : List Char) : List Char → Bool
  | [] => needle.isEmpty
  | c :: rest => needle.isPrefixOf (c :: rest) || containsSub needle rest

/-- String containment test used to state that a category name is absent
from an aggregate error message. -/
def strContains (hay needle : String) : Bool :=
  containsSub needle.data hay.data

/-- The dict one agent run returns:
`{"subdirectory": ..., "result": ..., "error": ...}`. -/
structure AgentRes where
  subdirectory : String
  result : String
  error : Option String
deriving DecidableEq

deriving instance DecidableEq for Except

/-- Python truthiness of `result.get("error")`: `None` and `""` are falsy. -/
def errTruthy : Option String → Bool
  | none => false
  | some e => !(e == "")

/-- The success branch of the partitioning loop in `helix`: an outcome
contributes a header-tagged block iff it is no exception, its `error` is
falsy and its `result` is non-empty (the `elif result.get("result")`
branch); an empty result with no error contributes nothing. -/
def successBlock : Except String AgentRes → Option String
  | Except.error _ => none
  | Except.ok r =>
    if errTruthy r.error then none
    else if r.result == "" then none
    else some ("=== " ++ pyUpper r.subdirectory ++ " RESULTS ===\n" ++ r.result)

/-- The failure branch of the partitioning loop in `helix`: an exception
from `gather` is recorded as `Unknown agent: ...`, a truthy `error` as
`subdirectory: error`; an empty result with no error is recorded nowhere. -/
def failureEntry : Except String AgentRes → Option String
  | Except.error e => some ("Unknown agent: " ++ e)
  | Except.ok r =>
    if errTruthy r.error then some (r.subdirectory ++ ": " ++ r.error.getD "")
    else none

/-- The post-`gather` part of `helix` from `src/client.py`: partition the
outcomes (in the order `asyncio.gather` returned them, i.e. declaration
order) into `successful_results` and `failed_agents`; with no success,
return the aggregate error; otherwise concatenate the successes, build the
failure note, and attempt the synthesis call (`synth` maps the concatenated
results to `some summary`, or `none` when the Cerebras call raises),
falling back to the concatenation prefixed as summarization-unavailable. -/
def helixCombine (outcomes : List (Except String AgentRes))
    (synth : String → Option String) : String :=
  let succ := outcomes.filterMap successBlock
  let failed := outcomes.filterMap failureEntry
  if succ.isEmpty then
    "Error: Unable to search any directories. Details:\n" ++
      (if failed.isEmpty then "All agents failed to return results"
       else String.intercalate "\n" failed)
  else
    let concatenated := String.intercalate "\n\n" succ
    let failureNote :=
      if failed.isEmpty then ""
      else "\n\nNote: Some search locations were unavailable: " ++
        String.intercalate ", " (failed.map splitColonHead)
    match synth concatenated with
    | some summary => summary ++ failureNote
    | none =>
      "Search Results (summarization unavailable):\n\n" ++ concatenated ++ failureNote

/-- The three categories, in the declaration order of the `agents` list in
`helix`. -/
inductive Category
  | links
  | docs
  | media
deriving DecidableEq

/-- Declaration order of the categories. -/
def categories : List Category := [Category.links, Category.docs, Category.media]

/-- The outcome a given category's agent produced, looked up in the list of
(category, outcome) pairs as they completed. -/
def lookupOutcome (c : Category) :
    List (Category × Except String AgentRes) → Option (Except String AgentRes)
  | [] => none
  | (c', o) :: rest => if c' = c then some o else lookupOutcome c rest

/-- `asyncio.gather` semantics: whatever order the agents completed in,
the outcome list is rebuilt in the declaration order of the categories. -/
def gatherOutcomes (completed : List (Category × Except String AgentRes)) :
    List (Except String AgentRes) :=
  categories.filterMap (fun c => lookupOutcome c completed)

/-- `helix` end to end: gather the per-category outcomes in declaration
order, then combine. -/
def helixTotal (completed : List (Category × Except String AgentRes))
    (synth : String → Option String) : String :=
  helixCombine (gatherOutcomes completed) synth

/-- Looking up a category is invariant under permuting the completion list,
as long as no category appears twice. -/
theorem lookupOutcome_perm (c : Category) :
    ∀ (l l' : List (Category × Except String AgentRes)), l.Perm l' →
      (l.map Prod.fst).Nodup → lookupOutcome c l = lookupOutcome c l' := by
  intro l l' h
  induction h with
  | nil => intro _; rfl
  | cons x h ih =>
    intro hn
    obtain ⟨cx, ox⟩ := x
    simp only [List.map_cons, List.nodup_cons] at hn
    unfold lookupOutcome
    by_cases hc : cx = c
    · simp [hc]
    · simp only [hc, if_false]
      exact ih hn.2
  | swap x y l =>
    intro hn
    obtain ⟨cx, ox⟩ := x
    obtain ⟨cy, oy⟩ := y
    simp only [List.map_cons, List.nodup_cons, List.mem_cons] at hn
    have hxy : cy ≠ cx := fun hEq => hn.1 (Or.inl hEq)
    by_cases hcy : cy = c
    · have hcx : ¬cx = c := fun hEq => hxy (hcy.trans hEq.symm)
      simp [lookupOutcome, hcy, hcx]
    · by_cases hcx : cx = c
      · simp [lookupOutcome, hcy, hcx]
      · simp [lookupOutcome, hcy, hcx]
  | trans h1 h2 ih1 ih2 =>
    intro hn
    have hn2 := ((h1.map Prod.fst).nodup_iff).mp hn
    rw [ih1 hn, ih2 hn2]

/-- When the completion list is a permutation of one outcome per category,
gathering yields exactly the declaration-order outcome list. -/
theorem gatherOutcomes_perm (o1 o2 o3 : Except String AgentRes)
    (completed : List (Category × Except String AgentRes))
    (h : completed.Perm
      [(Category.links, o1), (Category.docs, o2), (Category.media, o3)]) :
    gatherOutcomes completed = [o1, o2, o3] := by
  have hn : (completed.map Prod.fst).Nodup := by
    rw [(h.map Prod.fst).nodup_iff]
    simp only [List.map_cons, List.map_nil]
    decide
  have e1 := lookupOutcome_perm Category.links completed _ h hn
  have e2 := lookupOutcome_perm Category.docs completed _ h hn
  have e3 := lookupOutcome_perm Category.media completed _ h hn
  simp only [lookupOutcome] at e1 e2 e3
  unfold gatherOutcomes categories
  simp only [List.filterMap_cons, List.filterMap_nil]
  rw [e1, e2, e3]
  simp [lookupOutcome]

end Helix

namespace Helix

/-- C7 counterexample: with the links agent raising an exception, the docs
agent returning an empty result with no error, and the media agent failing
with error `crash`, there are zero successes — by the claim's own partition
all three categories are failures — yet the aggregate error message
enumerates only two reasons and does not mention `docs` at all: an empty
result with no error is dropped from both partitions. -/
theorem helix_drops_silent_empty_cex :
    helixCombine [Except.error "boom", Except.ok ⟨"docs", "", none⟩,
        Except.ok ⟨"media", "", some "crash"⟩] (fun _ => none)
      = "Error: Unable to search any directories. Details:\nUnknown agent: boom\nmedia: crash"
    ∧ strContains
        "Error: Unable to search any directories. Details:\nUnknown agent: boom\nmedia: crash"
        "docs" = false := by
  exact ⟨rfl, by decide⟩

/-- C7 (amended): successes are outcomes with a truthy result and falsy
error.  With zero successes, `helix` returns the aggregate error message
listing the recorded failure reasons — one per exception outcome and one
per truthy-error outcome, while categories that returned an empty result
without an error contribute no line — or the generic
`All agents failed to return results` when no reason was recorded; the
synthesis function is never consulted in this path (the output is the same
for every `synth`). -/
theorem helix_zero_success (outcomes : List (Except String AgentRes))
    (synth synth' : String → Option String)
    (h : outcomes.filterMap successBlock = []) :
    helixCombine outcomes synth =
      "Error: Unable to search any directories. Details:\n" ++
        (if (outcomes.filterMap failureEntry).isEmpty then
          "All agents failed to return results"
         else String.intercalate "\n" (outcomes.filterMap failureEntry))
    ∧ helixCombine outcomes synth = helixCombine outcomes synth' := by
  have h1 : ∀ (s : String → Option String),
      helixCombine outcomes s =
        "Error: Unable to search any directories. Details:\n" ++
          (if (outcomes.filterMap failureEntry).isEmpty then
            "All agents failed to return results"
           else String.intercalate "\n" (outcomes.filterMap failureEntry)) := by
    intro s
    simp [helixCombine, h]
  exact ⟨h1 synth, (h1 synth).trans (h1 synth').symm⟩

/-- C7 witness: the counterexample's outcome list has zero successes, and
the aggregate message is the same whether synthesis would have succeeded or
failed. -/
theorem helix_zero_success_witness :
    helixCombine [Except.error "boom", Except.ok ⟨"docs", "", none⟩,
        Except.ok ⟨"media", "", some "crash"⟩] (fun _ => some "SUM")
      = "Error: Unable to search any directories. Details:\n" ++
        (if ([Except.error "boom", Except.ok (⟨"docs", "", none⟩ : AgentRes),
            Except.ok ⟨"media", "", some "crash"⟩].filterMap failureEntry).isEmpty then
          "All agents failed to return results"
         else String.intercalate "\n"
          ([Except.error "boom", Except.ok (⟨"docs", "", none⟩ : AgentRes),
            Except.ok ⟨"media", "", some "crash"⟩].filterMap failureEntry))
    ∧ helixCombine [Except.error "boom", Except.ok ⟨"docs", "", none⟩,
        Except.ok ⟨"media", "", some "crash"⟩] (fun _ => some "SUM")
      = helixCombine [Except.error "boom", Except.ok ⟨"docs", "", none⟩,
          Except.ok ⟨"media", "", some "crash"⟩] (fun _ => none) :=
  helix_zero_success
    [Except.error "boom", Except.ok ⟨"docs", "", none⟩,
      Except.ok ⟨"media", "", some "crash"⟩]
    (fun _ => some "SUM") (fun _ => none) (by decide)

/-- C8: whatever order the three agents completed in, `helix` behaves as on
the declaration-order outcome list — the result is completion-order
independent — and the success blocks it concatenates are the header-tagged
results in the declaration order links, docs, media. -/
theorem helix_declaration_order (completed : List (Category × Except String AgentRes))
    (o1 o2 o3 : Except String AgentRes) (synth : String → Option String)
    (h : completed.Perm
      [(Category.links, o1), (Category.docs, o2), (Category.media, o3)]) :
    helixTotal completed synth = helixCombine [o1, o2, o3] synth
    ∧ (gatherOutcomes completed).filterMap successBlock =
        [o1, o2, o3].filterMap successBlock := by
  have hg := gatherOutcomes_perm o1 o2 o3 completed h
  exact ⟨by unfold helixTotal; rw [hg], by rw [hg]⟩

/-- C8 witness: the media agent finished first and the docs agent failed,
yet the output equals the declaration-order combination, whose only blocks
are the links and media results in that order. -/
theorem helix_declaration_order_witness :
    helixTotal
        [(Category.media, Except.ok ⟨"media", "M", none⟩),
         (Category.links, Except.ok ⟨"links", "L", none⟩),
         (Category.docs, Except.ok ⟨"docs", "", some "down"⟩)] (fun _ => none)
      = helixCombine
          [Except.ok ⟨"links", "L", none⟩, Except.ok ⟨"docs", "", some "down"⟩,
           Except.ok ⟨"media", "M", none⟩] (fun _ => none)
    ∧ (gatherOutcomes
        [(Category.media, Except.ok ⟨"media", "M", none⟩),
         (Category.links, Except.ok ⟨"links", "L", none⟩),
         (Category.docs, Except.ok ⟨"docs", "", some "down"⟩)]).filterMap successBlock
      = [Except.ok (⟨"links", "L", none⟩ : AgentRes),
         Except.ok ⟨"docs", "", some "down"⟩,
         Except.ok ⟨"media", "M", none⟩].filterMap successBlock :=
  helix_declaration_order
    [(Category.media, Except.ok ⟨"media", "M", none⟩),
     (Category.links, Except.ok ⟨"links", "L", none⟩),
     (Category.docs, Except.ok ⟨"docs", "", some "down"⟩)]
    (Except.ok ⟨"links", "L", none⟩) (Except.ok ⟨"docs", "", some "down"⟩)
    (Except.ok ⟨"media", "M", none⟩) (fun _ => none) (by decide)

/-- C9: with at least one success, a failing synthesis call makes `helix`
return the concatenated successful results verbatim behind the
summarization-unavailable prefix, and the note listing the unavailable
categories is appended identically whether synthesis succeeded or fell
back. -/
theorem helix_synth_fallback (outcomes : List (Except String AgentRes))
    (synth : String → Option String) (summary : String)
    (h : (outcomes.filterMap successBlock).isEmpty = false) :
    (synth (String.intercalate "\n\n" (outcomes.filterMap successBlock)) = none →
      helixCombine outcomes synth =
        "Search Results (summarization unavailable):\n\n" ++
          String.intercalate "\n\n" (outcomes.filterMap successBlock) ++
          (if (outcomes.filterMap failureEntry).isEmpty then ""
           else "\n\nNote: Some search locations were unavailable: " ++
             String.intercalate ", "
               ((outcomes.filterMap failureEntry).map splitColonHead)))
    ∧ (synth (String.intercalate "\n\n" (outcomes.filterMap successBlock)) =
        some summary →
      helixCombine outcomes synth =
        summary ++
          (if (outcomes.filterMap failureEntry).isEmpty then ""
           else "\n\nNote: Some search locations were unavailable: " ++
             String.intercalate ", "
               ((outcomes.filterMap failureEntry).map splitColonHead))) := by
  constructor <;> intro hs <;> simp [helixCombine, h, hs]

/-- C9 witness: two successful categories and a failed media agent; with a
raising synthesis call the output is the deterministic concatenation
fallback, and with a succeeding one the same note is appended to the
summary. -/
theorem helix_synth_fallback_witness :
    helixCombine [Except.ok ⟨"links", "L", none⟩, Except.ok ⟨"docs", "D", none⟩,
        Except.ok ⟨"media", "", some "down"⟩] (fun _ => none)
      = "Search Results (summarization unavailable):\n\n" ++
          String.intercalate "\n\n"
            ([Except.ok (⟨"links", "L", none⟩ : AgentRes),
              Except.ok ⟨"docs", "D", none⟩,
              Except.ok ⟨"media", "", some "down"⟩].filterMap successBlock) ++
          (if ([Except.ok (⟨"links", "L", none⟩ : AgentRes),
              Except.ok ⟨"docs", "D", none⟩,
              Except.ok ⟨"media", "", some "down"⟩].filterMap failureEntry).isEmpty
           then ""
           else "\n\nNote: Some search locations were unavailable: " ++
             String.intercalate ", "
               (([Except.ok (⟨"links", "L", none⟩ : AgentRes),
                  Except.ok ⟨"docs", "D", none⟩,
                  Except.ok ⟨"media", "", some "down"⟩].filterMap failureEntry).map
                 splitColonHead))
    ∧ helixCombine [Except.ok ⟨"links", "L", none⟩, Except.ok ⟨"docs", "D", none⟩,
        Except.ok ⟨"media", "", some "down"⟩] (fun _ => some "SUM")
      = "SUM" ++
          (if ([Except.ok (⟨"links", "L", none⟩ : AgentRes),
              Except.ok ⟨"docs", "D", none⟩,
              Except.ok ⟨"media", "", some "down"⟩].filterMap failureEntry).isEmpty
           then ""
           else "\n\nNote: Some search locations were unavailable: " ++
             String.intercalate ", "
               (([Except.ok (⟨"links", "L", none⟩ : AgentRes),
                  Except.ok ⟨"docs", "D", none⟩,
                  Except.ok ⟨"media", "", some "down"⟩].filterMap failureEntry).map
                 splitColonHead)) :=
  ⟨(helix_synth_fallback
      [Except.ok ⟨"links", "L", none⟩, Except.ok ⟨"docs", "D", none⟩,
        Except.ok ⟨"media", "", some "down"⟩] (fun _ => none) "SUM" (by decide)).1 rfl,
   (helix_synth_fallback
      [Except.ok ⟨"links", "L", none⟩, Except.ok ⟨"docs", "D", none⟩,
        Except.ok ⟨"media", "", some "down"⟩] (fun _ => some "SUM") "SUM"
      (by decide)).2 rfl⟩

end Helix
